import Mathlib

/-!
Verification of the filtering/aggregation pipeline of the course-feedback
dashboard (`src/app.py`).

The embedding models a pandas DataFrame of feedback records as an ordered
list of records.  Boolean-mask filtering (`data[mask]`) is `List.filter`;
`Series.mean()` skips missing values and is undefined on an all-missing
column; comparisons against a missing value are false (as for NaN);
`nunique()` counts distinct present values; `groupby` uses its default
`sort=True`, listing group keys in ascending order; `value_counts()` lists
keys by descending count (counts are accumulated in first-occurrence key
order and then sorted by a stable sort); `crosstab(..., normalize='index')`
keeps one row per key that has at least one record with both key values
present, each cell divided by its row total.  Ratings are modelled as
exact rationals.
-/

namespace FeedbackApp

/-- One feedback row of the CSV: `Student_ID`, `Subject`, `Rating`
(possibly missing), `Comment` (possibly missing). -/
structure FeedbackRecord where
  student_id : Int
  subject : String
  rating : Option ℚ
  comment : Option String
deriving Repr, DecidableEq

/-- A DataFrame of feedback records: an ordered list of rows. -/
abbrev RecordCollection := List FeedbackRecord

/-! ### Distinct values (first-occurrence order)

`Series.unique()` / hash-based grouping enumerate the distinct values of a
column in the order of their first occurrence. -/

/-- Core loop of `distinctList`: keep the elements not seen before,
remembering the seen ones. -/
def distinctAux {α : Type} [DecidableEq α] : List α → List α → List α
  | [], _ => []
  | a :: l, seen =>
    if a ∈ seen then distinctAux l seen else a :: distinctAux l (a :: seen)

/-- The distinct elements of a list, in first-occurrence order. -/
def distinctList {α : Type} [DecidableEq α] (l : List α) : List α :=
  distinctAux l []

/-! ### Filter Engine (src/app.py lines 50-78)

Each sidebar filter narrows `data` by a boolean mask.  The subject
multiselect is guarded by `if subject_filter:` so an empty selection
applies no constraint.  The rating and student-ID range masks are
inclusive on both ends; a missing rating compares false against both
bounds (NaN semantics), so the row is dropped. -/

/-- `if subject_filter: data = data[data["Subject"].isin(subject_filter)]`. -/
def filterSubject (sel : List String) (rs : RecordCollection) : RecordCollection :=
  if sel.isEmpty then rs else rs.filter (fun r => decide (r.subject ∈ sel))

/-- The rating-range mask for one row:
`(data["Rating"] >= lo) & (data["Rating"] <= hi)`; false on a missing rating. -/
def ratingMask (lo hi : ℚ) (r : FeedbackRecord) : Bool :=
  match r.rating with
  | some x => decide (lo ≤ x) && decide (x ≤ hi)
  | none => false

/-- `data = data[(data["Rating"] >= lo) & (data["Rating"] <= hi)]`. -/
def filterRating (lo hi : ℚ) (rs : RecordCollection) : RecordCollection :=
  rs.filter (ratingMask lo hi)

/-- The student-ID-range mask for one row. -/
def idMask (lo hi : Int) (r : FeedbackRecord) : Bool :=
  decide (lo ≤ r.student_id) && decide (r.student_id ≤ hi)

/-- `data = data[(data["Student_ID"] >= lo) & (data["Student_ID"] <= hi)]`. -/
def filterStudentId (lo hi : Int) (rs : RecordCollection) : RecordCollection :=
  rs.filter (idMask lo hi)

/-- The user-selected constraints: subject multiselect value, rating
slider value, student-ID slider value. -/
structure FilterCriteria where
  subjects : List String
  ratingLo : ℚ
  ratingHi : ℚ
  idLo : Int
  idHi : Int
deriving Repr, DecidableEq

/-- The sidebar applies the three filters in sequence: subject, then
rating range, then student-ID range. -/
def applyFilters (c : FilterCriteria) (rs : RecordCollection) : RecordCollection :=
  filterStudentId c.idLo c.idHi
    (filterRating c.ratingLo c.ratingHi
      (filterSubject c.subjects rs))

/-! ### Metrics Calculator (src/app.py lines 91-99) -/

/-- The present (non-missing) rating values of a collection, in order. -/
def presentRatings (rs : RecordCollection) : List ℚ :=
  rs.filterMap (fun r => r.rating)

/-- The arithmetic mean of a list of rationals; undefined on the empty
list (`Series.mean()` of an all-NaN or empty column is NaN). -/
def meanOpt (l : List ℚ) : Option ℚ :=
  if l.isEmpty then none else some (l.sum / l.length)

/-- The distinct subjects of a collection, in first-occurrence order. -/
def subjectsOf (rs : RecordCollection) : List String :=
  distinctList (rs.map (fun r => r.subject))

/-- The distinct student IDs of a collection, in first-occurrence order. -/
def studentIds (rs : RecordCollection) : List Int :=
  distinctList (rs.map (fun r => r.student_id))

/-- `len(data[data["Comment"].notna()])` (line 99): rows whose comment is
present, with no inspection of its content. -/
def commentCount (rs : RecordCollection) : Nat :=
  (rs.filter (fun r => r.comment.isSome)).length

/-- The five scalar metrics of the Key Metrics row. -/
structure MetricsSummary where
  total : Nat
  avgRating : Option ℚ
  distinctSubjects : Nat
  distinctStudents : Nat
  comments : Nat
deriving Repr, DecidableEq

/-- Key Metrics (lines 91-99): `len(data)`, `data["Rating"].mean()`,
`data["Subject"].nunique()`, `data["Student_ID"].nunique()`,
`len(data[data["Comment"].notna()])`. -/
def summarize (rs : RecordCollection) : MetricsSummary where
  total := rs.length
  avgRating := meanOpt (presentRatings rs)
  distinctSubjects := (subjectsOf rs).length
  distinctStudents := (studentIds rs).length
  comments := commentCount rs

/-! ### Full-range (no-constraint) criteria

The sidebar's default state: all subjects selected, each slider spanning
the minimum to the maximum of the column it is initialised from.  In the
code the rating slider's bounds come from the subject-filtered data and
the student-ID slider's bounds from the rating-filtered data
(lines 60-78). -/

/-- The minimum of a list under a linear order, with a default for the
empty list (`Series.min()`; the default stands in for NaN). -/
def listMinD {α : Type} [LinearOrder α] : List α → α → α
  | [], d => d
  | [a], _ => a
  | a :: b :: t, d => min a (listMinD (b :: t) d)

/-- The maximum of a list under a linear order, with a default for the
empty list (`Series.max()`). -/
def listMaxD {α : Type} [LinearOrder α] : List α → α → α
  | [], d => d
  | [a], _ => a
  | a :: b :: t, d => max a (listMaxD (b :: t) d)

/-- The data after the subject filter in its default all-selected state. -/
def afterSubject (rs : RecordCollection) : RecordCollection :=
  filterSubject (subjectsOf rs) rs

/-- Default lower bound of the rating slider: `float(data["Rating"].min())`
over the subject-filtered data. -/
def ratingLoFull (rs : RecordCollection) : ℚ :=
  listMinD (presentRatings (afterSubject rs)) 0

/-- Default upper bound of the rating slider. -/
def ratingHiFull (rs : RecordCollection) : ℚ :=
  listMaxD (presentRatings (afterSubject rs)) 0

/-- The data after the subject and rating filters in their default state. -/
def afterRating (rs : RecordCollection) : RecordCollection :=
  filterRating (ratingLoFull rs) (ratingHiFull rs) (afterSubject rs)

/-- Default lower bound of the student-ID slider:
`int(data["Student_ID"].min())` over the already rating-filtered data. -/
def idLoFull (rs : RecordCollection) : Int :=
  listMinD ((afterRating rs).map (fun r => r.student_id)) 0

/-- Default upper bound of the student-ID slider. -/
def idHiFull (rs : RecordCollection) : Int :=
  listMaxD ((afterRating rs).map (fun r => r.student_id)) 0

/-- The full-range (no-constraint) criteria: every subject selected and
each slider left at its default span. -/
def fullCriteria (rs : RecordCollection) : FilterCriteria where
  subjects := subjectsOf rs
  ratingLo := ratingLoFull rs
  ratingHi := ratingHiFull rs
  idLo := idLoFull rs
  idHi := idHiFull rs

/-! ### Aggregation Engine -/

/-- Number of records of a given subject (one cell of `value_counts()`). -/
def subjCount (rs : RecordCollection) (s : String) : Nat :=
  rs.countP (fun r => decide (r.subject = s))

/-- The subject/count pairs in first-occurrence key order, as the
hash-based counting pass of `value_counts()` produces them. -/
def subjectKeyCounts (rs : RecordCollection) : List (String × Nat) :=
  (subjectsOf rs).map (fun s => (s, subjCount rs s))

/-- Ordering of key/count pairs used by `value_counts()`: descending
count. -/
def countGe (a b : String × Nat) : Prop := b.2 ≤ a.2

instance : DecidableRel countGe := fun a b =>
  inferInstanceAs (Decidable (b.2 ≤ a.2))

instance : IsTotal (String × Nat) countGe :=
  ⟨fun a b => Nat.le_total b.2 a.2⟩

instance : IsTrans (String × Nat) countGe :=
  ⟨fun _ _ _ h h' => Nat.le_trans h' h⟩

/-- `data["Subject"].value_counts()` (line 125): subject/count pairs,
descending by count, ties kept in first-occurrence order (stable sort
model). -/
def value_counts (rs : RecordCollection) : List (String × Nat) :=
  (subjectKeyCounts rs).insertionSort countGe

/-- `data["Subject"].value_counts().head(15)` (line 184). -/
def value_counts15 (rs : RecordCollection) : List (String × Nat) :=
  (value_counts rs).take 15

/-- The present rating values of the records of one student. -/
def groupRatings (rs : RecordCollection) (k : Int) : List ℚ :=
  presentRatings (rs.filter (fun r => decide (r.student_id = k)))

/-- `data.groupby("Student_ID")["Rating"].mean().head(20)` (line 156):
group keys in ascending order (`groupby` default `sort=True`), per-group
mean of the present ratings, first 20 rows. -/
def student_avg (rs : RecordCollection) : List (Int × Option ℚ) :=
  (((studentIds rs).insertionSort (· ≤ ·)).map
    (fun k => (k, meanOpt (groupRatings rs k)))).take 20

/-- The present rating values of the records of one subject. -/
def subjRatings (rs : RecordCollection) (s : String) : List ℚ :=
  presentRatings (rs.filter (fun r => decide (r.subject = s)))

/-- Row ordering of `sort_values('mean')`: ascending mean, a missing
mean (NaN) placed last. -/
def meanLe (a b : String × Option ℚ × Nat) : Prop :=
  match a.2.1, b.2.1 with
  | some x, some y => x ≤ y
  | some _, none => True
  | none, some _ => False
  | none, none => True

instance : DecidableRel meanLe := fun a b => by
  unfold meanLe
  rcases a.2.1 with _ | x <;> rcases b.2.1 with _ | y <;>
    simp <;> infer_instance

/-- `data.groupby("Subject")["Rating"].agg(['mean','count']).sort_values('mean')`
(line 141): one row per subject with the mean and the count of its
present ratings, ascending by mean. -/
def subject_avg (rs : RecordCollection) : List (String × Option ℚ × Nat) :=
  (((subjectsOf rs).insertionSort (· ≤ ·)).map
    (fun s => (s, meanOpt (subjRatings rs s), (subjRatings rs s).length))).insertionSort meanLe

/-- Lexicographic order on (subject, rating) group keys. -/
def pairLe (a b : String × ℚ) : Prop :=
  a.1 < b.1 ∨ (a.1 = b.1 ∧ a.2 ≤ b.2)

instance : DecidableRel pairLe := fun a b =>
  inferInstanceAs (Decidable (a.1 < b.1 ∨ (a.1 = b.1 ∧ a.2 ≤ b.2)))

/-- The records whose rating is present. -/
def ratedRecords (rs : RecordCollection) : RecordCollection :=
  rs.filter (fun r => r.rating.isSome)

/-- Number of records with a given subject and a given (present) rating. -/
def cellCount (rs : RecordCollection) (s : String) (v : ℚ) : Nat :=
  rs.countP (fun r => decide (r.subject = s) && decide (r.rating = some v))

/-- `data.groupby(["Subject","Rating"]).size()` (line 172): one row per
observed (subject, rating) pair with its count, keys ascending. -/
def subjectRatingCounts (rs : RecordCollection) : List ((String × ℚ) × Nat) :=
  ((distinctList ((ratedRecords rs).map
      (fun r => (r.subject, r.rating.getD 0)))).insertionSort pairLe).map
    (fun k => (k, cellCount rs k.1 k.2))

/-- The distinct present rating values of the whole collection: the
column keys of the crosstab, in first-occurrence order. -/
def ratingValues (rs : RecordCollection) : List ℚ :=
  distinctList (presentRatings rs)

/-- The distinct subjects having at least one record with a present
rating: the row keys of the crosstab. -/
def ratedSubjects (rs : RecordCollection) : List String :=
  distinctList ((ratedRecords rs).map (fun r => r.subject))

/-- Number of records of a subject whose rating is present: the row
total used by `normalize='index'`. -/
def subjRatedCount (rs : RecordCollection) (s : String) : Nat :=
  rs.countP (fun r => decide (r.subject = s) && r.rating.isSome)

/-- One row of `pd.crosstab(data["Subject"], data["Rating"],
normalize='index') * 100` (line 203): for each column key, the percentage
share of that rating among the subject's rated records. -/
def crosstabRow (rs : RecordCollection) (s : String) : List (ℚ × ℚ) :=
  (ratingValues rs).map
    (fun v => (v, (cellCount rs s v : ℚ) / (subjRatedCount rs s : ℚ) * 100))

/-- The normalized subject-by-rating distribution (line 203): one row per
subject with at least one rated record, row keys ascending. -/
def rating_subject (rs : RecordCollection) : List (String × List (ℚ × ℚ)) :=
  ((ratedSubjects rs).insertionSort (· ≤ ·)).map (fun s => (s, crosstabRow rs s))

/-! ### Lemmas about distinct values -/

theorem mem_distinctAux {α : Type} [DecidableEq α] (x : α) (l : List α) :
    ∀ seen, x ∈ distinctAux l seen ↔ x ∈ l ∧ x ∉ seen := by
  induction l with
  | nil => intro seen; simp [distinctAux]
  | cons a t ih =>
    intro seen
    by_cases ha : a ∈ seen
    · rw [distinctAux, if_pos ha, ih]
      simp only [List.mem_cons]
      constructor
      · rintro ⟨hx, hns⟩
        exact ⟨Or.inr hx, hns⟩
      · rintro ⟨rfl | hx, hns⟩
        · exact absurd ha hns
        · exact ⟨hx, hns⟩
    · rw [distinctAux, if_neg ha]
      simp only [List.mem_cons, ih]
      constructor
      · rintro (rfl | ⟨hx, hns⟩)
        · exact ⟨Or.inl rfl, ha⟩
        · exact ⟨Or.inr hx, fun h => hns (Or.inr h)⟩
      · rintro ⟨rfl | hx, hns⟩
        · exact Or.inl rfl
        · by_cases hxa : x = a
          · exact Or.inl hxa
          · exact Or.inr ⟨hx, fun h => h.elim hxa hns⟩

theorem mem_distinctList {α : Type} [DecidableEq α] {x : α} {l : List α} :
    x ∈ distinctList l ↔ x ∈ l := by
  simp [distinctList, mem_distinctAux]

theorem nodup_distinctAux {α : Type} [DecidableEq α] (l : List α) :
    ∀ seen, (distinctAux l seen).Nodup := by
  induction l with
  | nil => intro seen; simp [distinctAux]
  | cons a t ih =>
    intro seen
    by_cases ha : a ∈ seen
    · rw [distinctAux, if_pos ha]; exact ih seen
    · rw [distinctAux, if_neg ha]
      refine List.nodup_cons.mpr ⟨fun h => ?_, ih _⟩
      exact ((mem_distinctAux a t _).mp h).2 (List.mem_cons_self a seen)

theorem nodup_distinctList {α : Type} [DecidableEq α] (l : List α) :
    (distinctList l).Nodup :=
  nodup_distinctAux l []

/-! ### Lemmas about the filters -/

theorem filter_swap {α : Type} (p q : α → Bool) (l : List α) :
    (l.filter p).filter q = (l.filter q).filter p := by
  simp only [List.filter_filter]
  exact List.filter_congr (fun a _ => by rw [Bool.and_comm])

/-- The subject filter commutes with any boolean-mask filter. -/
theorem filterSubject_filter (sel : List String) (p : FeedbackRecord → Bool)
    (rs : RecordCollection) :
    filterSubject sel (rs.filter p) = (filterSubject sel rs).filter p := by
  unfold filterSubject
  by_cases h : sel.isEmpty <;> simp only [h, if_true, if_false]
  exact filter_swap _ _ rs

theorem filterSubject_sublist (sel : List String) (rs : RecordCollection) :
    List.Sublist (filterSubject sel rs) rs := by
  unfold filterSubject
  by_cases h : sel.isEmpty <;> simp only [h, if_true, if_false]
  · exact List.Sublist.refl rs
  · exact List.filter_sublist rs

/-- A selection containing the subject of every record keeps every
record. -/
theorem filterSubject_eq_self (sel : List String) (rs : RecordCollection)
    (h : ∀ r ∈ rs, r.subject ∈ sel) : filterSubject sel rs = rs := by
  unfold filterSubject
  by_cases hsel : sel.isEmpty <;> simp only [hsel, if_true, if_false]
  exact List.filter_eq_self.mpr (fun r hr => decide_eq_true (h r hr))

/-! ### Lemmas about list minima and maxima -/

theorem listMinD_le {α : Type} [LinearOrder α] :
    ∀ (l : List α) (d x : α), x ∈ l → listMinD l d ≤ x
  | [], _, x, hx => absurd hx (List.not_mem_nil x)
  | [a], _, x, hx => by
    rcases List.mem_singleton.mp hx with rfl
    exact le_of_eq rfl
  | a :: b :: t, d, x, hx => by
    rcases List.mem_cons.mp hx with rfl | hx
    · exact min_le_left _ _
    · exact le_trans (min_le_right _ _) (listMinD_le (b :: t) d x hx)

theorem le_listMaxD {α : Type} [LinearOrder α] :
    ∀ (l : List α) (d x : α), x ∈ l → x ≤ listMaxD l d
  | [], _, x, hx => absurd hx (List.not_mem_nil x)
  | [a], _, x, hx => by
    rcases List.mem_singleton.mp hx with rfl
    exact le_of_eq rfl
  | a :: b :: t, d, x, hx => by
    rcases List.mem_cons.mp hx with rfl | hx
    · exact le_max_left _ _
    · exact le_trans (le_listMaxD (b :: t) d x hx) (le_max_right _ _)

/-! ### Counting lemmas for the crosstab -/

theorem countP_or_disjoint {α : Type} (p q : α → Bool) :
    ∀ (l : List α), (∀ a ∈ l, ¬(p a = true ∧ q a = true)) →
      l.countP (fun a => p a || q a) = l.countP p + l.countP q := by
  intro l
  induction l with
  | nil => intro; simp
  | cons a t ih =>
    intro h
    simp only [List.countP_cons]
    rw [ih (fun b hb => h b (List.mem_cons_of_mem a hb))]
    cases hpa : p a <;> cases hqa : q a
    · simp [hpa, hqa]
    · simp [hpa, hqa]; omega
    · simp [hpa, hqa]; omega
    · exact absurd ⟨hpa, hqa⟩ (h a (List.mem_cons_self a t))

/-- One record's rating is present and lies in a given list of column
keys. -/
def ratingIn (V : List ℚ) (r : FeedbackRecord) : Bool :=
  match r.rating with
  | some x => decide (x ∈ V)
  | none => false

theorem sum_cellCounts (rs : RecordCollection) (s : String) :
    ∀ (V : List ℚ), V.Nodup →
      (V.map (cellCount rs s)).sum
        = rs.countP (fun r => decide (r.subject = s) && ratingIn V r) := by
  intro V
  induction V with
  | nil =>
    intro _
    simp only [List.map_nil, List.sum_nil]
    symm
    refine List.countP_eq_zero.mpr ?_
    intro r _
    cases h2 : r.rating <;> simp [ratingIn, h2]
  | cons v W ih =>
    intro hnd
    obtain ⟨hv, hW⟩ := List.nodup_cons.mp hnd
    simp only [List.map_cons, List.sum_cons, ih hW]
    unfold cellCount
    rw [← countP_or_disjoint]
    · apply List.countP_congr
      intro r _
      cases h2 : r.rating with
      | none => simp [ratingIn, h2]
      | some x =>
        by_cases hxv : x = v
        all_goals simp [ratingIn, h2, List.mem_cons, hxv, Bool.and_or_distrib_left]
        all_goals tauto
    · intro r _ hcon
      obtain ⟨h1, h2⟩ := hcon
      rw [Bool.and_eq_true, decide_eq_true_eq] at h1 h2
      rcases h3 : r.rating with _ | x
      · rw [h3] at h1; exact absurd h1.2 (by simp)
      · rw [h3] at h1
        have hx : x = v := by simpa using h1.2
        rw [ratingIn, h3] at h2
        rw [decide_eq_true_eq] at *
        exact hv (hx ▸ (by simpa using h2.2))

/-- Summing a subject's cell counts over all column keys of the crosstab
gives the number of that subject's rated records. -/
theorem countP_ratingIn_values (rs : RecordCollection) (s : String) :
    rs.countP (fun r => decide (r.subject = s) && ratingIn (ratingValues rs) r)
      = subjRatedCount rs s := by
  unfold subjRatedCount
  apply List.countP_congr
  intro r hr
  cases h2 : r.rating with
  | none => simp [ratingIn, h2]
  | some x =>
    have hx : x ∈ ratingValues rs :=
      mem_distinctList.mpr (List.mem_filterMap.mpr ⟨r, hr, h2⟩)
    simp [ratingIn, h2, hx]

theorem sum_map_div_mul (V : List ℚ) (f : ℚ → ℕ) (n c : ℚ) :
    (V.map (fun v => (f v : ℚ) / n * c)).sum = ((V.map f).sum : ℕ) / n * c := by
  induction V with
  | nil => simp
  | cons v W ih =>
    simp only [List.map_cons, List.sum_cons, ih]
    push_cast
    ring

/-- Each crosstab row of a subject with at least one rated record sums
to exactly 100. -/
theorem crosstabRow_sum (rs : RecordCollection) (s : String)
    (h : 0 < subjRatedCount rs s) :
    ((crosstabRow rs s).map Prod.snd).sum = 100 := by
  unfold crosstabRow
  rw [List.map_map]
  show ((ratingValues rs).map
    (fun v => (cellCount rs s v : ℚ) / (subjRatedCount rs s : ℚ) * 100)).sum = 100
  rw [sum_map_div_mul,
    sum_cellCounts rs s (ratingValues rs) (nodup_distinctList (presentRatings rs)),
    countP_ratingIn_values]
  have hn : (subjRatedCount rs s : ℚ) ≠ 0 :=
    Nat.cast_ne_zero.mpr (Nat.pos_iff_ne_zero.mp h)
  field_simp

/-! ### The default (full-range) criteria applies no constraint
when every rating is present -/

theorem afterSubject_eq (rs : RecordCollection) : afterSubject rs = rs :=
  filterSubject_eq_self _ _
    (fun _r hr => mem_distinctList.mpr (List.mem_map_of_mem _ hr))

theorem afterRating_eq (rs : RecordCollection)
    (h : ∀ r ∈ rs, (r.rating).isSome) : afterRating rs = rs := by
  unfold afterRating filterRating
  rw [afterSubject_eq]
  refine List.filter_eq_self.mpr ?_
  intro r hr
  rcases ho : r.rating with _ | x
  · have := h r hr
    rw [ho] at this
    exact absurd this (by simp)
  · have hx : x ∈ presentRatings (afterSubject rs) := by
      rw [afterSubject_eq]
      exact List.mem_filterMap.mpr ⟨r, hr, ho⟩
    simp only [ratingMask, ho, Bool.and_eq_true, decide_eq_true_eq]
    exact ⟨listMinD_le _ _ _ hx, le_listMaxD _ _ _ hx⟩

theorem applyFilters_full (rs : RecordCollection)
    (h : ∀ r ∈ rs, (r.rating).isSome) :
    applyFilters (fullCriteria rs) rs = rs := by
  show filterStudentId (idLoFull rs) (idHiFull rs) (afterRating rs) = rs
  rw [afterRating_eq rs h]
  refine List.filter_eq_self.mpr ?_
  intro r hr
  have hid : r.student_id ∈ (afterRating rs).map (fun r => r.student_id) := by
    rw [afterRating_eq rs h]
    exact List.mem_map_of_mem _ hr
  simp only [idMask, idLoFull, idHiFull, Bool.and_eq_true, decide_eq_true_eq]
  exact ⟨listMinD_le _ _ _ hid, le_listMaxD _ _ _ hid⟩

/-! ### Shared witness data -/

/-- A concrete record used in witnesses. -/
def rW1 : FeedbackRecord := ⟨1, "Math", some 4, some "good"⟩

/-- A concrete record used in witnesses. -/
def rW2 : FeedbackRecord := ⟨2, "Art", some 3, none⟩

/-- A concrete two-record collection used in witnesses. -/
def rsW : RecordCollection := [rW1, rW2]

/-! ### Claim C1 -/

/-- C1: for every record collection and every filter criteria, the
filtered collection is a sublist of the input: each of its records is a
member of the input and they appear in the input's relative order. -/
theorem claim_c1_filtered_is_ordered_sublist (c : FilterCriteria)
    (rs : RecordCollection) :
    List.Sublist (applyFilters c rs) rs := by
  refine List.Sublist.trans (List.filter_sublist _) ?_
  refine List.Sublist.trans (List.filter_sublist _) ?_
  exact filterSubject_sublist c.subjects rs

/-! ### Claim C7 -/

/-- C7: the three filters compose conjunctively and the order of their
application does not matter: the sequential application equals a single
filter by the conjunction of the three per-record masks, and all six
application orders produce the same collection. -/
theorem filterSubject_filterRating (sel : List String) (lo hi : ℚ)
    (rs : RecordCollection) :
    filterSubject sel (filterRating lo hi rs)
      = filterRating lo hi (filterSubject sel rs) :=
  filterSubject_filter sel (ratingMask lo hi) rs

theorem filterSubject_filterStudentId (sel : List String) (ilo ihi : Int)
    (rs : RecordCollection) :
    filterSubject sel (filterStudentId ilo ihi rs)
      = filterStudentId ilo ihi (filterSubject sel rs) :=
  filterSubject_filter sel (idMask ilo ihi) rs

theorem filterRating_filterStudentId (lo hi : ℚ) (ilo ihi : Int)
    (rs : RecordCollection) :
    filterRating lo hi (filterStudentId ilo ihi rs)
      = filterStudentId ilo ihi (filterRating lo hi rs) :=
  filter_swap _ _ rs

/-- C7: the three filters compose conjunctively and the order of their
application does not matter: the sequential application equals a single
filter by the conjunction of the three per-record masks, and all six
application orders produce the same collection. -/
theorem claim_c7_order_independent (c : FilterCriteria) (rs : RecordCollection) :
    (applyFilters c rs = rs.filter (fun r =>
        (c.subjects.isEmpty || decide (r.subject ∈ c.subjects)) &&
        ratingMask c.ratingLo c.ratingHi r && idMask c.idLo c.idHi r)) ∧
    filterRating c.ratingLo c.ratingHi
        (filterStudentId c.idLo c.idHi (filterSubject c.subjects rs))
      = applyFilters c rs ∧
    filterStudentId c.idLo c.idHi
        (filterSubject c.subjects (filterRating c.ratingLo c.ratingHi rs))
      = applyFilters c rs ∧
    filterSubject c.subjects
        (filterStudentId c.idLo c.idHi (filterRating c.ratingLo c.ratingHi rs))
      = applyFilters c rs ∧
    filterRating c.ratingLo c.ratingHi
        (filterSubject c.subjects (filterStudentId c.idLo c.idHi rs))
      = applyFilters c rs ∧
    filterSubject c.subjects
        (filterRating c.ratingLo c.ratingHi (filterStudentId c.idLo c.idHi rs))
      = applyFilters c rs := by
  obtain ⟨sel, lo, hi, ilo, ihi⟩ := c
  refine ⟨?_, ?_, ?_, ?_, ?_, ?_⟩
  · show filterStudentId ilo ihi (filterRating lo hi (filterSubject sel rs)) = _
    unfold filterStudentId filterRating filterSubject
    by_cases hsel : sel.isEmpty = true
    · rw [if_pos hsel, hsel]
      simp only [Bool.true_or, Bool.true_and, List.filter_filter]
      apply List.filter_congr
      intro r _
      cases h2 : ratingMask lo hi r <;> cases h3 : idMask ilo ihi r <;>
        simp [h2, h3]
    · rw [if_neg hsel, Bool.not_eq_true] at *
      rw [hsel]
      simp only [Bool.false_or, List.filter_filter]
      apply List.filter_congr
      intro r _
      cases h1 : decide (r.subject ∈ sel) <;> cases h2 : ratingMask lo hi r <;>
        cases h3 : idMask ilo ihi r <;> simp [h1, h2, h3]
  · show filterRating lo hi (filterStudentId ilo ihi (filterSubject sel rs))
        = filterStudentId ilo ihi (filterRating lo hi (filterSubject sel rs))
    rw [filterRating_filterStudentId]
  · show filterStudentId ilo ihi (filterSubject sel (filterRating lo hi rs))
        = filterStudentId ilo ihi (filterRating lo hi (filterSubject sel rs))
    rw [filterSubject_filterRating]
  · show filterSubject sel (filterStudentId ilo ihi (filterRating lo hi rs))
        = filterStudentId ilo ihi (filterRating lo hi (filterSubject sel rs))
    rw [filterSubject_filterStudentId, filterSubject_filterRating]
  · show filterRating lo hi (filterSubject sel (filterStudentId ilo ihi rs))
        = filterStudentId ilo ihi (filterRating lo hi (filterSubject sel rs))
    rw [filterSubject_filterStudentId, filterRating_filterStudentId]
  · show filterSubject sel (filterRating lo hi (filterStudentId ilo ihi rs))
        = filterStudentId ilo ihi (filterRating lo hi (filterSubject sel rs))
    rw [filterSubject_filterRating, filterSubject_filterStudentId,
      filterRating_filterStudentId]

/-! ### Claim C9 -/

/-- C9: an empty subject selection applies no constraint (select all);
a selection covering every record's subject keeps every record (in
particular selecting all subjects); a non-empty selection keeps exactly
the records whose subject is a member of the selection. -/
theorem claim_c9_subject_selection_policy (sel : List String)
    (rs : RecordCollection) :
    (filterSubject [] rs = rs) ∧
    ((∀ r ∈ rs, r.subject ∈ sel) → filterSubject sel rs = rs) ∧
    (sel ≠ [] → ∀ r, r ∈ filterSubject sel rs ↔ r ∈ rs ∧ r.subject ∈ sel) := by
  refine ⟨rfl, filterSubject_eq_self sel rs, ?_⟩
  intro hsel r
  have hne : sel.isEmpty = false := by
    cases sel with
    | nil => exact absurd rfl hsel
    | cons a t => rfl
  rw [filterSubject, hne]
  simp [List.mem_filter]

/-- Witness for C9 at concrete inputs: the empty selection and the
all-subjects selection keep both records; the selection `["Math"]` keeps
a record exactly when its subject is `"Math"`. -/
theorem claim_c9_subject_selection_policy_witness :
    filterSubject [] rsW = rsW ∧
    filterSubject ["Math", "Art"] rsW = rsW ∧
    (rW1 ∈ filterSubject ["Math"] rsW ↔
      rW1 ∈ rsW ∧ rW1.subject ∈ (["Math"] : List String)) :=
  ⟨(claim_c9_subject_selection_policy [] rsW).1,
   (claim_c9_subject_selection_policy ["Math", "Art"] rsW).2.1 (by decide),
   (claim_c9_subject_selection_policy ["Math"] rsW).2.2 (by decide) rW1⟩

/-! ### Claim C2

The claim asserts the full-range criteria is an identity on all metrics
even when some records have a missing rating.  It is not: the rating
mask is false on a missing rating even when the range spans the whole
column, so such records are dropped and the total count shrinks. -/

/-- Two records, one of which has a missing rating. -/
def rsC2 : RecordCollection :=
  [⟨1, "Math", some 4, some "good"⟩, ⟨2, "Math", none, none⟩]

/-- C2 is false as stated: on a collection with a missing rating, the
full-range criteria drops the unrated record, so the summary changes
(total 2 becomes 1). -/
theorem claim_c2_counterexample :
    (summarize rsC2).total = 2 ∧
    (summarize (applyFilters (fullCriteria rsC2) rsC2)).total = 1 ∧
    summarize (applyFilters (fullCriteria rsC2) rsC2) ≠ summarize rsC2 := by
  decide

/-- C2 (amended): when every record's rating is present, applying the
full-range (no-constraint) criteria returns the collection unchanged,
and hence is an identity on every metric of the summary. -/
theorem claim_c2_noop_identity_when_ratings_present (rs : RecordCollection)
    (h : ∀ r ∈ rs, (r.rating).isSome) :
    applyFilters (fullCriteria rs) rs = rs ∧
    summarize (applyFilters (fullCriteria rs) rs) = summarize rs := by
  have he := applyFilters_full rs h
  exact ⟨he, by rw [he]⟩

/-- Witness for the amended C2 at a concrete two-record collection with
all ratings present. -/
theorem claim_c2_noop_identity_witness :
    applyFilters (fullCriteria rsW) rsW = rsW ∧
    summarize (applyFilters (fullCriteria rsW) rsW) = summarize rsW :=
  claim_c2_noop_identity_when_ratings_present rsW (by decide)

/-! ### Claim C3

The claim asserts the comment metric trims whitespace.  Line 99 of the
code counts `notna()` rows only, so a whitespace-only (or empty-string)
comment is counted. -/

/-- The comment count described by the spec sentence: comments present
and non-empty after trimming surrounding whitespace, i.e. containing at
least one non-whitespace character. -/
def commentCountTrimmed (rs : RecordCollection) : Nat :=
  (rs.filter (fun r =>
    match r.comment with
    | some c => c.toList.any (fun ch => !(ch.isWhitespace))
    | none => false)).length

/-- One record whose comment is a single space. -/
def rsC3 : RecordCollection := [⟨1, "Math", some 4, some " "⟩]

/-- C3 is false as stated: the code counts a whitespace-only comment
(`commentCount` gives 1 where the trimming count gives 0). -/
theorem claim_c3_counterexample :
    commentCount rsC3 = 1 ∧ commentCountTrimmed rsC3 = 0 ∧
    commentCount rsC3 ≠ commentCountTrimmed rsC3 := by
  decide

/-- C3 (amended): the comment metric counts exactly the records whose
comment field is present, regardless of its content (no trimming, no
emptiness test). -/
theorem claim_c3_comment_count_counts_presence (rs : RecordCollection) :
    commentCount rs = (rs.map (fun r => r.comment)).countP Option.isSome := by
  rw [commentCount, List.countP_map, List.countP_eq_length_filter]
  rfl

/-! ### Claim C6 -/

/-- C6: on the empty (fully filtered-out) collection, the summary is
total 0, undefined (not zero) average, zero distinct subjects, zero
distinct students and zero comments, and every aggregate table is
empty — no failure anywhere downstream. -/
theorem claim_c6_empty_collection_degrades :
    summarize [] = ⟨0, none, 0, 0, 0⟩ ∧
    value_counts [] = [] ∧
    value_counts15 [] = [] ∧
    subject_avg [] = [] ∧
    student_avg [] = [] ∧
    subjectRatingCounts [] = [] ∧
    rating_subject [] = [] :=
  ⟨rfl, rfl, rfl, rfl, rfl, rfl, rfl⟩

/-! ### Claim C4

The claim asserts the per-student preview lists the first 20 groups in
first-occurrence key order.  pandas `groupby` defaults to `sort=True`,
so the group keys are in ascending `Student_ID` order instead. -/

/-- The per-student aggregate the claim describes: groups in
first-occurrence order of the keys. -/
def student_avg_firstOccurrence (rs : RecordCollection) : List (Int × Option ℚ) :=
  ((studentIds rs).map (fun k => (k, meanOpt (groupRatings rs k)))).take 20

/-- Two records whose student IDs first occur in descending order. -/
def rsC4 : RecordCollection :=
  [⟨2, "Math", some 5, none⟩, ⟨1, "Math", some 4, none⟩]

/-- C4 is false as stated: with keys first occurring as 2 then 1, the
aggregate lists student 1 first (ascending key order), not student 2. -/
theorem claim_c4_counterexample :
    (student_avg rsC4).map Prod.fst = [1, 2] ∧
    (student_avg_firstOccurrence rsC4).map Prod.fst = [2, 1] ∧
    student_avg rsC4 ≠ student_avg_firstOccurrence rsC4 := by
  refine ⟨by decide, by decide, fun h => ?_⟩
  have h2 := congrArg (List.map Prod.fst) h
  rw [show (student_avg rsC4).map Prod.fst = [1, 2] from by decide,
    show (student_avg_firstOccurrence rsC4).map Prod.fst = [2, 1] from by decide]
    at h2
  exact absurd h2 (by decide)

/-- C4 (amended): the per-student aggregate groups by student ID and
computes the mean of each group's present ratings; the table returned is
exactly the first 20 groups in ascending student-ID order
(`groupby(sort=True)` followed by `.head(20)`): it has `min 20 #groups`
rows, its keys are sorted ascending, every row is a genuine group mean,
every group key omitted from the table is at least every kept key (the
20 smallest keys are kept), and with at most 20 distinct students every
group appears. -/
theorem claim_c4_student_avg_first20_sorted (rs : RecordCollection) :
    (student_avg rs).length = min 20 (studentIds rs).length ∧
    List.Sorted (· ≤ ·) ((student_avg rs).map Prod.fst) ∧
    (∀ p ∈ student_avg rs, p.1 ∈ studentIds rs ∧
      p.2 = meanOpt (groupRatings rs p.1)) ∧
    (∀ k ∈ studentIds rs, (∀ p ∈ student_avg rs, p.1 ≠ k) →
      ∀ p ∈ student_avg rs, p.1 ≤ k) ∧
    ((studentIds rs).length ≤ 20 →
      ∀ k ∈ studentIds rs, (k, meanOpt (groupRatings rs k)) ∈ student_avg rs) := by
  have hmap : ((student_avg rs).map Prod.fst)
      = ((studentIds rs).insertionSort (· ≤ ·)).take 20 := by
    unfold student_avg
    rw [List.map_take, List.map_map]
    show (((studentIds rs).insertionSort (· ≤ ·)).map (fun k => k)).take 20 = _
    rw [List.map_id']
  refine ⟨?_, ?_, ?_, ?_, ?_⟩
  · unfold student_avg
    rw [List.length_take, List.length_map, List.length_insertionSort]
  · rw [hmap]
    exact (List.sorted_insertionSort _ _).sublist (List.take_sublist _ _)
  · intro p hp
    have hp2 : p ∈ ((studentIds rs).insertionSort (· ≤ ·)).map
        (fun k => (k, meanOpt (groupRatings rs k))) :=
      (List.take_sublist _ _).subset hp
    obtain ⟨k, hk, rfl⟩ := List.mem_map.mp hp2
    exact ⟨(List.mem_insertionSort _).mp hk, rfl⟩
  · intro k hk hnot p hp
    have hks : k ∈ (studentIds rs).insertionSort (· ≤ ·) :=
      (List.mem_insertionSort _).mpr hk
    have hsplit : k ∈ ((studentIds rs).insertionSort (· ≤ ·)).take 20 ++
        ((studentIds rs).insertionSort (· ≤ ·)).drop 20 := by
      rw [List.take_append_drop]
      exact hks
    have hknotin : k ∉ ((studentIds rs).insertionSort (· ≤ ·)).take 20 := by
      rw [← hmap]
      intro hmem
      obtain ⟨q, hq, hq1⟩ := List.mem_map.mp hmem
      exact hnot q hq hq1
    have hkdrop : k ∈ ((studentIds rs).insertionSort (· ≤ ·)).drop 20 :=
      (List.mem_append.mp hsplit).resolve_left hknotin
    have hptake : p.1 ∈ ((studentIds rs).insertionSort (· ≤ ·)).take 20 := by
      rw [← hmap]
      exact List.mem_map_of_mem _ hp
    exact (List.sorted_insertionSort _ _).rel_of_mem_take_of_mem_drop hptake hkdrop
  · intro hlen k hk
    have hlen2 : (((studentIds rs).insertionSort (· ≤ ·)).map
        (fun k => (k, meanOpt (groupRatings rs k)))).length ≤ 20 := by
      rw [List.length_map, List.length_insertionSort]
      exact hlen
    unfold student_avg
    rw [List.take_of_length_le hlen2]
    exact List.mem_map_of_mem _ ((List.mem_insertionSort _).mpr hk)

/-- Twenty-one records with student IDs 1 to 21: one more group than the
preview holds, so the truncation takes effect. -/
def rsC4w : RecordCollection :=
  (List.range 21).map (fun i => ⟨(i : Int) + 1, "Math", some 3, none⟩)

/-- Witness for the amended C4.  At the 21-student collection the table
is truncated to exactly 20 rows: student 21's group exists but is
dropped, the kept keys are sorted, and the kept key 1 is at most the
omitted key 21 (dominance).  At the two-student collection every group
appears. -/
theorem claim_c4_student_avg_first20_sorted_witness :
    (student_avg rsC4w).length = 20 ∧
    (studentIds rsC4w).length = 21 ∧
    (21 : Int) ∈ studentIds rsC4w ∧
    (21 : Int) ∉ (student_avg rsC4w).map Prod.fst ∧
    List.Sorted (· ≤ ·) ((student_avg rsC4w).map Prod.fst) ∧
    (1 : Int) ≤ 21 ∧
    ((1 : Int), meanOpt (groupRatings rsW 1)) ∈ student_avg rsW := by
  obtain ⟨h1, h2, _, h4, _⟩ := claim_c4_student_avg_first20_sorted rsC4w
  obtain ⟨_, _, _, _, h5w⟩ := claim_c4_student_avg_first20_sorted rsW
  have hnot : ∀ p ∈ student_avg rsC4w, p.1 ≠ 21 := by decide
  have h21 : (21 : Int) ∈ studentIds rsC4w := by decide
  have hm1 : (1 : Int) ∈ (student_avg rsC4w).map Prod.fst := by decide
  obtain ⟨p, hp, hp1⟩ := List.mem_map.mp hm1
  refine ⟨?_, by decide, h21, ?_, h2, ?_, h5w (by decide) 1 (by decide)⟩
  · rw [h1, show (studentIds rsC4w).length = 21 from by decide]
    decide
  · intro hmem
    obtain ⟨q, hq, hq1⟩ := List.mem_map.mp hmem
    exact hnot q hq hq1
  · rw [← hp1]
    exact h4 21 h21 hnot p hp

/-! ### Claim C5

The claim asserts `value_counts` breaks count ties by subject name
ascending.  It does not: ties stay in first-occurrence order. -/

/-- The ordering the claim describes: descending count with ties broken
by subject name ascending. -/
def countThenNameLe (a b : String × Nat) : Prop :=
  b.2 < a.2 ∨ (a.2 = b.2 ∧ a.1 ≤ b.1)

/-- Two subjects with one record each, first occurring as "B" then "A". -/
def rsC5 : RecordCollection :=
  [⟨1, "B", some 1, none⟩, ⟨2, "A", some 1, none⟩]

/-- C5 is false as stated: with equal counts, `value_counts` keeps the
first-occurrence order "B" before "A", which is not sorted by subject
name ascending. -/
theorem claim_c5_counterexample :
    value_counts rsC5 = [("B", 1), ("A", 1)] ∧
    ¬ List.Sorted countThenNameLe (value_counts rsC5) := by
  have hvc : value_counts rsC5 = [("B", 1), ("A", 1)] := by decide
  refine ⟨hvc, ?_⟩
  intro h
  rw [hvc] at h
  have hrel : countThenNameLe ("B", 1) ("A", 1) :=
    (List.sorted_cons.mp h).1 _ (List.mem_singleton.mpr rfl)
  rcases hrel with hlt | ⟨_, hle⟩
  · exact absurd hlt (by decide)
  · rw [String.le_iff_toList_le] at hle
    exact absurd hle (by decide)

/-- C5 (amended): `value_counts` lists the distinct subjects with their
counts in descending count order, and subjects of equal count appear in
the order their subject first occurs in the input (stable sort), not in
name order. -/
theorem claim_c5_value_counts_order (rs : RecordCollection) :
    List.Sorted countGe (value_counts rs) ∧
    List.Perm (value_counts rs) (subjectKeyCounts rs) ∧
    (∀ a b : String × Nat, a.2 = b.2 →
      List.Sublist [a, b] (subjectKeyCounts rs) →
      List.Sublist [a, b] (value_counts rs)) := by
  refine ⟨List.sorted_insertionSort _ _, List.perm_insertionSort _ _, ?_⟩
  intro a b hab hsub
  exact List.pair_sublist_insertionSort (le_of_eq hab.symm) hsub

/-- Witness for the amended C5 at the concrete tie: the pair
("B",1), ("A",1) keeps its first-occurrence order in the output. -/
theorem claim_c5_value_counts_order_witness :
    List.Sorted countGe (value_counts rsC5) ∧
    List.Sublist [(("B" : String), (1 : Nat)), ("A", 1)] (value_counts rsC5) := by
  obtain ⟨h1, _, h3⟩ := claim_c5_value_counts_order rsC5
  refine ⟨h1, h3 ("B", 1) ("A", 1) rfl ?_⟩
  have : subjectKeyCounts rsC5 = [("B", 1), ("A", 1)] := by decide
  rw [this]

/-! ### Claim C10 -/

/-- C10: the subjects-by-feedback-count table keeps at most 15 rows; it
is an ordered selection from the full descending count table, and every
omitted row's count is at most every kept row's count (the 15 highest
counts are kept). -/
theorem claim_c10_top15_limit (rs : RecordCollection) :
    (value_counts15 rs).length ≤ 15 ∧
    List.Sublist (value_counts15 rs) (value_counts rs) ∧
    (∀ p ∈ value_counts15 rs, ∀ q ∈ (value_counts rs).drop 15, q.2 ≤ p.2) := by
  refine ⟨List.length_take_le _ _, List.take_sublist _ _, ?_⟩
  intro p hp q hq
  exact (List.sorted_insertionSort countGe _).rel_of_mem_take_of_mem_drop hp hq

/-- Sixteen records with sixteen distinct subjects, used to exercise the
15-row limit. -/
def rsC10 : RecordCollection :=
  [⟨1, "A", some 3, none⟩, ⟨2, "B", some 3, none⟩, ⟨3, "C", some 3, none⟩,
   ⟨4, "D", some 3, none⟩, ⟨5, "E", some 3, none⟩, ⟨6, "F", some 3, none⟩,
   ⟨7, "G", some 3, none⟩, ⟨8, "H", some 3, none⟩, ⟨9, "J", some 3, none⟩,
   ⟨10, "K", some 3, none⟩, ⟨11, "L", some 3, none⟩, ⟨12, "M", some 3, none⟩,
   ⟨13, "N", some 3, none⟩, ⟨14, "P", some 3, none⟩, ⟨15, "Q", some 3, none⟩,
   ⟨16, "R", some 3, none⟩]

/-- Witness for C10 at a 16-subject collection: 15 rows are kept and the
omitted sixteenth subject's count is at most a kept subject's count. -/
theorem claim_c10_top15_limit_witness :
    (value_counts15 rsC10).length ≤ 15 ∧
    List.Sublist (value_counts15 rsC10) (value_counts rsC10) ∧
    ((("R" : String), (1 : Nat)).2 ≤ ((("A" : String), (1 : Nat))).2) := by
  obtain ⟨h1, h2, h3⟩ := claim_c10_top15_limit rsC10
  exact ⟨h1, h2, h3 ("A", 1) (by decide) ("R", 1) (by decide)⟩

/-! ### Claim C8

The crosstab keys rows by the pairs with both values present, so a
subject whose records all lack a rating has no row at all, although it
has records in the collection. -/

/-- One record whose rating is missing. -/
def rsC8 : RecordCollection := [⟨1, "Math", none, none⟩]

/-- C8 is false as stated: subject "Math" has a record in the collection
but no row in the normalized distribution (its only record has a missing
rating), so its percentage shares do not sum to 100. -/
theorem claim_c8_counterexample :
    (∃ r ∈ rsC8, r.subject = "Math") ∧
    rating_subject rsC8 = [] ∧
    "Math" ∉ (rating_subject rsC8).map Prod.fst := by
  decide

/-- C8 (amended): every subject with at least one record with a present
rating has a row in the normalized distribution; every row's percentage
shares sum to exactly 100 (well within the claimed 0.01 tolerance); and
a subject with no record at all has no row. -/
theorem claim_c8_normalized_rows (rs : RecordCollection) (s : String)
    (h : ∃ r ∈ rs, r.subject = s ∧ (r.rating).isSome) :
    s ∈ (rating_subject rs).map Prod.fst ∧
    (∀ row ∈ rating_subject rs, (row.2.map Prod.snd).sum = 100) ∧
    (∀ s2, (∀ r ∈ rs, r.subject ≠ s2) →
      s2 ∉ (rating_subject rs).map Prod.fst) := by
  have hmem : ∀ s3, s3 ∈ ratedSubjects rs ↔
      ∃ r ∈ rs, r.subject = s3 ∧ (r.rating).isSome := by
    intro s3
    unfold ratedSubjects ratedRecords
    rw [mem_distinctList]
    simp only [List.mem_map, List.mem_filter]
    constructor
    · rintro ⟨r, ⟨hr, hrat⟩, rfl⟩
      exact ⟨r, hr, rfl, hrat⟩
    · rintro ⟨r, hr, rfl, hrat⟩
      exact ⟨r, ⟨hr, hrat⟩, rfl⟩
  refine ⟨?_, ?_, ?_⟩
  · have hs : s ∈ (ratedSubjects rs).insertionSort (· ≤ ·) :=
      (List.mem_insertionSort _).mpr ((hmem s).mpr h)
    exact List.mem_map.mpr
      ⟨(s, crosstabRow rs s), List.mem_map_of_mem _ hs, rfl⟩
  · intro row hrow
    unfold rating_subject at hrow
    obtain ⟨s2, hs2, rfl⟩ := List.mem_map.mp hrow
    have hs2m : s2 ∈ ratedSubjects rs := (List.mem_insertionSort _).mp hs2
    obtain ⟨r, hr, hsub, hrat⟩ := (hmem s2).mp hs2m
    have hpos : 0 < subjRatedCount rs s2 := by
      unfold subjRatedCount
      refine List.countP_pos_iff.mpr ⟨r, hr, ?_⟩
      rw [Bool.and_eq_true, decide_eq_true_eq]
      exact ⟨hsub, hrat⟩
    exact crosstabRow_sum rs s2 hpos
  · intro s2 hnone hmem2
    unfold rating_subject at hmem2
    obtain ⟨p, hp, hfst⟩ := List.mem_map.mp hmem2
    obtain ⟨s3, hs3, rfl⟩ := List.mem_map.mp hp
    have heq : s3 = s2 := hfst
    subst heq
    have hs3m : s3 ∈ ratedSubjects rs := (List.mem_insertionSort _).mp hs3
    obtain ⟨r, hr, hsub, _⟩ := (hmem s3).mp hs3m
    exact hnone r hr hsub

/-- Witness for the amended C8 at a one-record rated collection: subject
"Math" has a row and that row's shares sum to 100. -/
theorem claim_c8_normalized_rows_witness :
    "Math" ∈ (rating_subject [rW1]).map Prod.fst ∧
    ((((("Math" : String), crosstabRow [rW1] "Math")).2.map Prod.snd).sum = 100) := by
  obtain ⟨h1, h2, _⟩ := claim_c8_normalized_rows [rW1] "Math" (by decide)
  refine ⟨h1, h2 _ ?_⟩
  show ("Math", crosstabRow [rW1] "Math") ∈ rating_subject [rW1]
  have hrs : rating_subject [rW1] = [("Math", crosstabRow [rW1] "Math")] := rfl
  rw [hrs]
  exact List.mem_singleton.mpr rfl

end FeedbackApp
